import Mathlib

/-!
The program amx-cpuid: detection of Intel AMX support through CPUID and XCR0

A shallow embedding of `amx-cpuid.cpp`.

* Machine integers are natural numbers; a value stored into a `uint32_t`
  is reduced modulo `2^32`, a `uint64_t` expression modulo `2^64`.
* The two inline-assembly instructions read the processor.  The processor
  is a value of type `Hardware`: what the instruction leaves in the
  registers for each selector.
* The observable effects of the program are the instructions it executes
  and the characters it writes to `std::cout`; both are recorded in a
  `World` that every statement passes on.
-/

namespace AmxCpuid

/-! ## Constants (the `#define`s) -/

/-- Macro `#define XCR0_INDEX 0` -/
def XCR0_INDEX : Nat := 0

/-- Macro `#define XFEATURE_XTILECFG 17` -/
def XFEATURE_XTILECFG : Nat := 17
/-- Macro `#define XFEATURE_XTILEDATA 18` -/
def XFEATURE_XTILEDATA : Nat := 18
/-- Macro `#define XFEATURE_MASK_XTILECFG (1 << XFEATURE_XTILECFG)`: an `int`
constant; it is non-negative, so its conversion to an unsigned type keeps
the value. -/
def XFEATURE_MASK_XTILECFG : Nat := 1 <<< XFEATURE_XTILECFG
/-- Macro `#define XFEATURE_MASK_XTILEDATA (1 << XFEATURE_XTILEDATA)` -/
def XFEATURE_MASK_XTILEDATA : Nat := 1 <<< XFEATURE_XTILEDATA
/-- Macro `#define XFEATURE_MASK_XTILE (XFEATURE_MASK_XTILECFG | XFEATURE_MASK_XTILEDATA)` -/
def XFEATURE_MASK_XTILE : Nat := XFEATURE_MASK_XTILECFG ||| XFEATURE_MASK_XTILEDATA

/-- Macro `#define CPUID_AMX_BF16 22`, leaf 7 sub-leaf 0, edx -/
def CPUID_AMX_BF16 : Nat := 22
/-- Macro `#define CPUID_AMX_TILE 24`, leaf 7 sub-leaf 0, edx -/
def CPUID_AMX_TILE : Nat := 24
/-- Macro `#define CPUID_AMX_INT8 25`, leaf 7 sub-leaf 0, edx -/
def CPUID_AMX_INT8 : Nat := 25
/-- Macro `#define CPUID_MASK_AMX_BF16 (1 << CPUID_AMX_BF16)` -/
def CPUID_MASK_AMX_BF16 : Nat := 1 <<< CPUID_AMX_BF16
/-- Macro `#define CPUID_MASK_AMX_TILE (1 << CPUID_AMX_TILE)` -/
def CPUID_MASK_AMX_TILE : Nat := 1 <<< CPUID_AMX_TILE
/-- Macro `#define CPUID_MASK_AMX_INT8 (1 << CPUID_AMX_INT8)` -/
def CPUID_MASK_AMX_INT8 : Nat := 1 <<< CPUID_AMX_INT8

/-- Macro `#define CPUID_AMX_FP16 21`, leaf 7 sub-leaf 1, eax -/
def CPUID_AMX_FP16 : Nat := 21
/-- Macro `#define CPUID_AMX_COMPLEX 8`, leaf 7 sub-leaf 1, edx -/
def CPUID_AMX_COMPLEX : Nat := 8
/-- Macro `#define CPUID_MASK_AMX_FP16 (1 << CPUID_AMX_FP16)` -/
def CPUID_MASK_AMX_FP16 : Nat := 1 <<< CPUID_AMX_FP16
/-- Macro `#define CPUID_MASK_AMX_COMPLEX (1 << CPUID_AMX_COMPLEX)` -/
def CPUID_MASK_AMX_COMPLEX : Nat := 1 <<< CPUID_AMX_COMPLEX

/-! ## The processor and the world -/

/-- The four general registers the `cpuid` instruction fills. -/
structure Regs where
  eax : Nat
  ebx : Nat
  ecx : Nat
  edx : Nat
deriving DecidableEq, Repr

/-- What the processor answers: `cpuidInsn leaf subleaf` is what the
`cpuid` instruction leaves in eax, ebx, ecx, edx when executed with
eax = leaf and ecx = subleaf; `xgetbvInsn index` is the pair (eax, edx)
the `xgetbv` instruction leaves when executed with ecx = index. -/
structure Hardware where
  cpuidInsn : Nat → Nat → Regs
  xgetbvInsn : Nat → Nat × Nat

/-- One executed hardware instruction together with its selector. -/
inductive Query where
  | cpuid (leaf subleaf : Nat)
  | xgetbv (index : Nat)
deriving DecidableEq, Repr

/-- The effects of the program so far: the hardware instructions executed
(oldest first) and the characters written to `std::cout`. -/
structure World where
  issued : List Query
  stdout : String
deriving DecidableEq, Repr

/-- The world at program start. -/
def World.start : World := { issued := [], stdout := "" }

/-- Store into a `uint32_t`. -/
def u32 (n : Nat) : Nat := n % 2 ^ 32

/-- Value of a `uint64_t` expression. -/
def u64 (n : Nat) : Nat := n % 2 ^ 64

/-! ## The functions of `amx-cpuid.cpp` -/

/-- Function `void cpuid(uint32_t leaf, uint32_t subleaf, uint32_t* eax, uint32_t* ebx,
uint32_t* ecx, uint32_t* edx)`: executes `cpuid` once and writes all four
output registers through the four pointers; the result is the new content
of `*eax, *ebx, *ecx, *edx`. -/
def cpuid (hw : Hardware) (leaf subleaf : Nat) (w : World) : Regs × World :=
  let r := hw.cpuidInsn (u32 leaf) (u32 subleaf)
  ({ eax := u32 r.eax, ebx := u32 r.ebx, ecx := u32 r.ecx, edx := u32 r.edx },
   { w with issued := w.issued ++ [Query.cpuid (u32 leaf) (u32 subleaf)] })

/-- Function `uint64_t xgetbv(uint32_t index)`: executes `xgetbv` once and returns
`((uint64_t)edx << 32) | eax`. -/
def xgetbv (hw : Hardware) (index : Nat) (w : World) : Nat × World :=
  let r := hw.xgetbvInsn (u32 index)
  let eax := u32 r.1
  let edx := u32 r.2
  (u64 (u64 (u64 edx <<< 32) ||| u64 eax),
   { w with issued := w.issued ++ [Query.xgetbv (u32 index)] })

/-- The statement `std::cout << s`. -/
def cout (s : String) (w : World) : World :=
  { w with stdout := w.stdout ++ s }

/-- The local variables of `main` when it returns. -/
structure Frame where
  eax : Nat
  ebx : Nat
  ecx : Nat
  edx : Nat
  amx_tile_supported : Bool
  amx_bf16_supported : Bool
  amx_int8_supported : Bool
  amx_fp16_supported : Bool
  amx_complex_supported : Bool
  xcr0 : Nat
  xsave_shows_amx_support : Bool
deriving DecidableEq, Repr

/-- What a run of `main` leaves behind: the exit status, the final
locals and the world. -/
structure Outcome where
  status : Int
  frame : Frame
  world : World
deriving DecidableEq, Repr

/-- Function `int main()`.  Control reaches the end of `main` without a `return`,
which in C++ is `return 0`. -/
def main (hw : Hardware) (w : World) : Outcome :=
  -- cpuid(7, 0, &eax, &ebx, &ecx, &edx);
  let (r, w) := cpuid hw 7 0 w
  let edx := r.edx
  let amx_tile_supported := (u32 (edx &&& u32 CPUID_MASK_AMX_TILE)) != 0
  let w := if amx_tile_supported then cout "CPUID reports AMX-TILE support.\n" w else w
  let amx_bf16_supported := (u32 (edx &&& u32 CPUID_MASK_AMX_BF16)) != 0
  let w := if amx_bf16_supported then cout "CPUID reports AMX-BF16 support.\n" w else w
  let amx_int8_supported := (u32 (edx &&& u32 CPUID_MASK_AMX_INT8)) != 0
  let w := if amx_int8_supported then cout "CPUID reports AMX-INT8 support.\n" w else w
  -- cpuid(7, 1, &eax, &ebx, &ecx, &edx);
  let (r, w) := cpuid hw 7 1 w
  let eax := r.eax
  let ebx := r.ebx
  let ecx := r.ecx
  let edx := r.edx
  let amx_fp16_supported := (u32 (eax &&& u32 CPUID_MASK_AMX_FP16)) != 0
  let w := if amx_fp16_supported then cout "CPUID reports AMX-FP16 support.\n" w else w
  let amx_complex_supported := (u32 (edx &&& u32 CPUID_MASK_AMX_COMPLEX)) != 0
  let w := if amx_complex_supported then cout "CPUID reports AMX-COMPLEX support.\n" w else w
  -- uint64_t xcr0 = xgetbv(XCR0_INDEX);
  let (xcr0, w) := xgetbv hw XCR0_INDEX w
  let xsave_shows_amx_support := u64 (xcr0 &&& u64 XFEATURE_MASK_XTILE) == u64 XFEATURE_MASK_XTILE
  let w := if xsave_shows_amx_support then
      cout "The TILECFG and TILEDATA bits are set in the Extended Control Register 0 (XCR0).\n" w
    else w
  { status := 0
    frame :=
      { eax := eax, ebx := ebx, ecx := ecx, edx := edx
        amx_tile_supported := amx_tile_supported
        amx_bf16_supported := amx_bf16_supported
        amx_int8_supported := amx_int8_supported
        amx_fp16_supported := amx_fp16_supported
        amx_complex_supported := amx_complex_supported
        xcr0 := xcr0
        xsave_shows_amx_support := xsave_shows_amx_support }
    world := w }

/-! ## Vocabulary for the statements -/

/-- The six flags of a frame in the order in which `main` computes them:
tile, bf16, int8, fp16, complex, xsave. -/
def Frame.flags (f : Frame) : List Bool :=
  [f.amx_tile_supported, f.amx_bf16_supported, f.amx_int8_supported,
   f.amx_fp16_supported, f.amx_complex_supported, f.xsave_shows_amx_support]

/-- The fixed six-line list: the text of the six string literals of `main`
without the closing newline, in source order. -/
def capabilityLines : List String :=
  ["CPUID reports AMX-TILE support.",
   "CPUID reports AMX-BF16 support.",
   "CPUID reports AMX-INT8 support.",
   "CPUID reports AMX-FP16 support.",
   "CPUID reports AMX-COMPLEX support.",
   "The TILECFG and TILEDATA bits are set in the Extended Control Register 0 (XCR0)."]

/-- The entries of `xs` whose flag in `bs` is true, in order. -/
def keep : List Bool → List String → List String
  | b :: bs, x :: xs => if b then x :: keep bs xs else keep bs xs
  | _, _ => []

/-- Splits a character sequence into lines: every newline closes the line
collected in `cur` (most recent character first); characters after the last
newline form a final unterminated line. -/
def linesAux (cur : List Char) : List Char → List String
  | [] => if cur.isEmpty then [] else [String.mk cur.reverse]
  | c :: cs =>
    if c = '\n' then String.mk cur.reverse :: linesAux [] cs
    else linesAux (c :: cur) cs

/-- The lines of a text. -/
def textLines (s : String) : List String := linesAux [] s.data

/-- The text `main` appends to `std::cout` for given flag values. -/
def emitted (f : Frame) : String :=
  (if f.amx_tile_supported then "CPUID reports AMX-TILE support.\n" else "") ++
  ((if f.amx_bf16_supported then "CPUID reports AMX-BF16 support.\n" else "") ++
  ((if f.amx_int8_supported then "CPUID reports AMX-INT8 support.\n" else "") ++
  ((if f.amx_fp16_supported then "CPUID reports AMX-FP16 support.\n" else "") ++
  ((if f.amx_complex_supported then "CPUID reports AMX-COMPLEX support.\n" else "") ++
   (if f.xsave_shows_amx_support then
      "The TILECFG and TILEDATA bits are set in the Extended Control Register 0 (XCR0).\n"
    else "")))))

/-- A test double for the processor: answers `cpuid` at (7, 0) with `r0`,
at (7, 1) with `r1`, everything else with zeros, and `xgetbv` at index 0
with the halves `(lo, hi)`. -/
def double (r0 r1 : Regs) (lo hi : Nat) : Hardware :=
  { cpuidInsn := fun leaf subleaf =>
      if leaf = 7 ∧ subleaf = 0 then r0
      else if leaf = 7 ∧ subleaf = 1 then r1
      else { eax := 0, ebx := 0, ecx := 0, edx := 0 }
    xgetbvInsn := fun index => if index = 0 then (lo, hi) else (0, 0) }

/-- All-zero registers. -/
def Regs.zero : Regs := { eax := 0, ebx := 0, ecx := 0, edx := 0 }

/-- Registers with every bit of every 32-bit word set. -/
def Regs.ones : Regs :=
  { eax := 0xFFFFFFFF, ebx := 0xFFFFFFFF, ecx := 0xFFFFFFFF, edx := 0xFFFFFFFF }

/-- A processor on which every queried bit is clear. -/
def hwNone : Hardware := double Regs.zero Regs.zero 0 0

/-- A processor on which every queried bit is set. -/
def hwAll : Hardware := double Regs.ones Regs.ones 0xFFFFFFFF 0xFFFFFFFF

/-- A processor whose XCR0 has the two tile bits and nothing else, and
whose CPUID words are all zero. -/
def hwXcr0Only : Hardware := double Regs.zero Regs.zero 0x00060000 0

/-- A processor whose leaf 7 sub-leaf 0 edx is `0x03000000`, everything
else zero. -/
def hwTileInt8 : Hardware :=
  double { eax := 0, ebx := 0, ecx := 0, edx := 0x03000000 } Regs.zero 0 0

/-- A processor whose leaf 7 sub-leaf 0 has every bit set and whose
sub-leaf 1 has only eax bit 21 set. -/
def hwFp16 : Hardware :=
  double Regs.ones { eax := 0x00200000, ebx := 0, ecx := 0, edx := 0 } 0 0

/-- A processor that agrees with `hwTileInt8` on the three queries of
`main` and answers every other selector with all bits set. -/
def hwTileInt8Alt : Hardware :=
  { cpuidInsn := fun leaf subleaf =>
      if leaf = 7 ∧ subleaf = 0 then { eax := 0, ebx := 0, ecx := 0, edx := 0x03000000 }
      else if leaf = 7 ∧ subleaf = 1 then Regs.zero
      else Regs.ones
    xgetbvInsn := fun index => if index = 0 then (0, 0) else (0xFFFFFFFF, 0xFFFFFFFF) }

/-- A world in which earlier activity has already been recorded. -/
def World.used : World :=
  { issued := [Query.cpuid 0 0], stdout := "earlier output\n" }

/-- Whether a query is a capability (`cpuid`) query. -/
def Query.isCpuid : Query → Bool
  | Query.cpuid _ _ => true
  | Query.xgetbv _ => false

/-- Whether a query is an extended-state (`xgetbv`) query. -/
def Query.isXgetbv : Query → Bool
  | Query.cpuid _ _ => false
  | Query.xgetbv _ => true

/-- The text a run appended to `std::cout`: what the final world `w'` holds
after the characters the initial world `w` already held. -/
def appended (w w' : World) : String :=
  String.mk (w'.stdout.data.drop w.stdout.data.length)

/-- The lines a run of `main` writes to standard output. -/
def mainLines (hw : Hardware) (w : World) : List String :=
  textLines (appended w (main hw w).world)

/-- The six capabilities `main` reports, in source order. -/
inductive Capability where
  | tile
  | bf16
  | int8
  | fp16
  | complex
  | xsave
deriving DecidableEq, Repr

/-- All six capabilities in source order. -/
def Capability.all : List Capability :=
  [Capability.tile, Capability.bf16, Capability.int8, Capability.fp16,
   Capability.complex, Capability.xsave]

/-- The local of `main` that holds the flag of a capability. -/
def Capability.flag (f : Frame) : Capability → Bool
  | Capability.tile => f.amx_tile_supported
  | Capability.bf16 => f.amx_bf16_supported
  | Capability.int8 => f.amx_int8_supported
  | Capability.fp16 => f.amx_fp16_supported
  | Capability.complex => f.amx_complex_supported
  | Capability.xsave => f.xsave_shows_amx_support

/-- The line `main` prints under the `if` of a capability's flag (the
string literal without its closing newline). -/
def Capability.line : Capability → String
  | Capability.tile => "CPUID reports AMX-TILE support."
  | Capability.bf16 => "CPUID reports AMX-BF16 support."
  | Capability.int8 => "CPUID reports AMX-INT8 support."
  | Capability.fp16 => "CPUID reports AMX-FP16 support."
  | Capability.complex => "CPUID reports AMX-COMPLEX support."
  | Capability.xsave =>
    "The TILECFG and TILEDATA bits are set in the Extended Control Register 0 (XCR0)."

/-- The name by which a capability is identified in the output. -/
def Capability.label : Capability → String
  | Capability.tile => "AMX-TILE"
  | Capability.bf16 => "AMX-BF16"
  | Capability.int8 => "AMX-INT8"
  | Capability.fp16 => "AMX-FP16"
  | Capability.complex => "AMX-COMPLEX"
  | Capability.xsave => "XCR0"

/-- Whether the flag of a capability is computed from a `cpuid` result
(true) or from the `xgetbv` result (false). -/
def Capability.viaCpuid : Capability → Bool
  | Capability.xsave => false
  | _ => true

/-- Whether the text `s` begins with the text `p`. -/
def beginsWith (p s : String) : Bool := p.data.isPrefixOf s.data

/-- Whether `needle` occurs as a contiguous run somewhere in a character
sequence. -/
def mentionsAux (needle : List Char) : List Char → Bool
  | [] => needle.isEmpty
  | c :: cs => needle.isPrefixOf (c :: cs) || mentionsAux needle cs

/-- Whether the text `s` contains the text `p`. -/
def mentions (p s : String) : Bool := mentionsAux p.data s.data

/-- Every bit set in `a` is also set in `b`. -/
def bitsLe (a b : Nat) : Prop := a &&& b = a

instance (a b : Nat) : Decidable (bitsLe a b) := by
  unfold bitsLe
  exact inferInstance

/-- Every bit set in one of the four words of `a` is also set in the
corresponding word of `b`. -/
def Regs.bitsLe (a b : Regs) : Prop :=
  AmxCpuid.bitsLe a.eax b.eax ∧ AmxCpuid.bitsLe a.ebx b.ebx ∧
  AmxCpuid.bitsLe a.ecx b.ecx ∧ AmxCpuid.bitsLe a.edx b.edx

instance (a b : Regs) : Decidable (Regs.bitsLe a b) := by
  unfold Regs.bitsLe
  exact inferInstance

/-- A processor whose five CPUID capability bits are set and nothing else:
edx bits 22, 24, 25 at leaf 7 sub-leaf 0, eax bit 21 and edx bit 8 at
sub-leaf 1, XCR0 zero. -/
def hwCpuidOnly : Hardware :=
  double { eax := 0, ebx := 0, ecx := 0, edx := 0x03400000 }
    { eax := 0x00200000, ebx := 0, ecx := 0, edx := 0x00000100 } 0 0

/-! ## Bit-level lemmas -/

theorem and_two_pow_ne_zero (x k : Nat) : ((x &&& 2 ^ k) != 0) = x.testBit k := by
  cases h : x.testBit k
  · have : x &&& 2 ^ k = 0 := by
      apply Nat.eq_of_testBit_eq
      intro i
      simp only [Nat.testBit_and, Nat.testBit_two_pow, Nat.zero_testBit]
      by_cases hi : k = i
      · subst hi; simp [h]
      · simp [hi]
    simp [this]
  · have : (x &&& 2 ^ k).testBit k = true := by
      simp [Nat.testBit_and, Nat.testBit_two_pow_self, h]
    have hne : x &&& 2 ^ k ≠ 0 := by
      intro h0
      rw [h0] at this
      simp at this
    simp [hne]

theorem u32_bit_test (x k : Nat) (hk : k < 32) :
    ((u32 (u32 x &&& u32 (1 <<< k))) != 0) = x.testBit k := by
  have hpow : 2 ^ k < 2 ^ 32 := Nat.pow_lt_pow_right (by decide) hk
  have h1 : u32 (1 <<< k) = 2 ^ k := by
    unfold u32
    rw [Nat.one_shiftLeft, Nat.mod_eq_of_lt hpow]
  have h2 : u32 (u32 x &&& 2 ^ k) = u32 x &&& 2 ^ k := by
    unfold u32
    exact Nat.mod_eq_of_lt (lt_of_le_of_lt Nat.and_le_right hpow)
  rw [h1, h2, and_two_pow_ne_zero]
  unfold u32
  rw [Nat.testBit_mod_two_pow]
  simp [hk]

theorem xtile_mask_test (x : Nat) :
    (u64 (x &&& u64 XFEATURE_MASK_XTILE) == u64 XFEATURE_MASK_XTILE)
      = (x.testBit 17 && x.testBit 18) := by
  have hm : u64 XFEATURE_MASK_XTILE = 2 ^ 17 ||| 2 ^ 18 := by decide
  have hlt : x &&& (2 ^ 17 ||| 2 ^ 18) < 2 ^ 64 :=
    lt_of_le_of_lt Nat.and_le_right (by decide)
  rw [hm]
  have h2 : u64 (x &&& (2 ^ 17 ||| 2 ^ 18)) = x &&& (2 ^ 17 ||| 2 ^ 18) := by
    unfold u64
    exact Nat.mod_eq_of_lt hlt
  rw [h2]
  cases h17 : x.testBit 17 <;> cases h18 : x.testBit 18
  all_goals simp only [Bool.and_true, Bool.and_false, Bool.false_and, beq_eq_false_iff_ne, beq_iff_eq, ne_eq]
  · intro h
    have := congrArg (fun n => Nat.testBit n 17) h
    simp only [Nat.testBit_and, Nat.testBit_or, Nat.testBit_two_pow, h17, Bool.false_and] at this
    revert this
    decide
  · intro h
    have := congrArg (fun n => Nat.testBit n 17) h
    simp only [Nat.testBit_and, Nat.testBit_or, Nat.testBit_two_pow, h17, Bool.false_and] at this
    revert this
    decide
  · intro h
    have := congrArg (fun n => Nat.testBit n 18) h
    simp only [Nat.testBit_and, Nat.testBit_or, Nat.testBit_two_pow, h18, Bool.false_and] at this
    revert this
    decide
  · apply Nat.eq_of_testBit_eq
    intro i
    simp only [Nat.testBit_and, Nat.testBit_or, Nat.testBit_two_pow]
    by_cases hi : 17 = i
    · subst hi; simp [h17]
    · by_cases hj : 18 = i
      · subst hj; simp [h18]
      · simp [hi, hj]

theorem xgetbv_value (lo hi : Nat) :
    u64 (u64 (u64 (u32 hi) <<< 32) ||| u64 (u32 lo)) = u32 hi * 2 ^ 32 + u32 lo := by
  have hlo : u32 lo < 2 ^ 32 := Nat.mod_lt _ (by decide)
  have hhi : u32 hi < 2 ^ 32 := Nat.mod_lt _ (by decide)
  have e1 : u64 (u32 hi) = u32 hi := Nat.mod_eq_of_lt (lt_trans hhi (by decide))
  have e2 : u64 (u32 lo) = u32 lo := Nat.mod_eq_of_lt (lt_trans hlo (by decide))
  have hsum : u32 hi * 2 ^ 32 + u32 lo < 2 ^ 64 := by omega
  have e3 : u64 (u32 hi <<< 32) = u32 hi * 2 ^ 32 := by
    rw [Nat.shiftLeft_eq]
    exact Nat.mod_eq_of_lt (by omega)
  have e4 : u32 hi * 2 ^ 32 ||| u32 lo = u32 hi * 2 ^ 32 + u32 lo := by
    rw [Nat.mul_comm, ← Nat.mul_add_lt_is_or hlo]
  rw [e1, e2, e3, e4]
  exact Nat.mod_eq_of_lt hsum

/-! ## What `main` computes -/

theorem tile_test (x : Nat) :
    ((u32 (u32 x &&& u32 CPUID_MASK_AMX_TILE)) != 0) = x.testBit 24 :=
  u32_bit_test x 24 (by decide)

theorem bf16_test (x : Nat) :
    ((u32 (u32 x &&& u32 CPUID_MASK_AMX_BF16)) != 0) = x.testBit 22 :=
  u32_bit_test x 22 (by decide)

theorem int8_test (x : Nat) :
    ((u32 (u32 x &&& u32 CPUID_MASK_AMX_INT8)) != 0) = x.testBit 25 :=
  u32_bit_test x 25 (by decide)

theorem fp16_test (x : Nat) :
    ((u32 (u32 x &&& u32 CPUID_MASK_AMX_FP16)) != 0) = x.testBit 21 :=
  u32_bit_test x 21 (by decide)

theorem complex_test (x : Nat) :
    ((u32 (u32 x &&& u32 CPUID_MASK_AMX_COMPLEX)) != 0) = x.testBit 8 :=
  u32_bit_test x 8 (by decide)

theorem u32_seven : u32 7 = 7 := by decide
theorem u32_one : u32 1 = 1 := by decide
theorem u32_zero : u32 0 = 0 := by decide
theorem u32_xcr0_index : u32 XCR0_INDEX = 0 := by decide

theorem main_tile (hw : Hardware) (w : World) :
    (main hw w).frame.amx_tile_supported = (hw.cpuidInsn 7 0).edx.testBit 24 := by
  simp only [main, cpuid, tile_test, u32_seven, u32_zero]

theorem main_bf16 (hw : Hardware) (w : World) :
    (main hw w).frame.amx_bf16_supported = (hw.cpuidInsn 7 0).edx.testBit 22 := by
  simp only [main, cpuid, bf16_test, u32_seven, u32_zero]

theorem main_int8 (hw : Hardware) (w : World) :
    (main hw w).frame.amx_int8_supported = (hw.cpuidInsn 7 0).edx.testBit 25 := by
  simp only [main, cpuid, int8_test, u32_seven, u32_zero]

theorem main_fp16 (hw : Hardware) (w : World) :
    (main hw w).frame.amx_fp16_supported = (hw.cpuidInsn 7 1).eax.testBit 21 := by
  simp only [main, cpuid, fp16_test, u32_seven, u32_one]

theorem main_complex (hw : Hardware) (w : World) :
    (main hw w).frame.amx_complex_supported = (hw.cpuidInsn 7 1).edx.testBit 8 := by
  simp only [main, cpuid, complex_test, u32_seven, u32_one]

theorem main_xcr0 (hw : Hardware) (w : World) :
    (main hw w).frame.xcr0
      = u32 (hw.xgetbvInsn 0).2 * 2 ^ 32 + u32 (hw.xgetbvInsn 0).1 := by
  simp only [main, xgetbv, xgetbv_value, u32_xcr0_index]

theorem main_xsave (hw : Hardware) (w : World) :
    (main hw w).frame.xsave_shows_amx_support
      = ((main hw w).frame.xcr0.testBit 17 && (main hw w).frame.xcr0.testBit 18) := by
  simp only [main, xtile_mask_test]

theorem main_status (hw : Hardware) (w : World) : (main hw w).status = 0 := by
  simp only [main]

theorem main_issued (hw : Hardware) (w : World) :
    (main hw w).world.issued
      = w.issued ++ [Query.cpuid 7 0, Query.cpuid 7 1, Query.xgetbv 0] := by
  simp only [main, cpuid, xgetbv, cout, u32_seven, u32_zero, u32_one, u32_xcr0_index]
  repeat' split
  all_goals simp

theorem main_stdout (hw : Hardware) (w : World) :
    (main hw w).world.stdout = w.stdout ++ emitted (main hw w).frame := by
  simp only [main, cpuid, xgetbv, cout, emitted]
  repeat' split
  all_goals simp [String.append_assoc]

set_option maxRecDepth 100000 in
theorem textLines_emitted (f : Frame) :
    textLines (emitted f) = keep f.flags capabilityLines := by
  rcases f with ⟨a, b, c, d, b1, b2, b3, b4, b5, x, b6⟩
  cases b1 <;> cases b2 <;> cases b3 <;> cases b4 <;> cases b5 <;> cases b6 <;> rfl

set_option maxRecDepth 100000 in
theorem emitted_eq_join (f : Frame) :
    emitted f = String.join ((keep f.flags capabilityLines).map (fun l => l ++ "\n")) := by
  rcases f with ⟨a, b, c, d, b1, b2, b3, b4, b5, x, b6⟩
  cases b1 <;> cases b2 <;> cases b3 <;> cases b4 <;> cases b5 <;> cases b6 <;> rfl

theorem halves_recombine (v : Nat) (hv : v < 2 ^ 64) :
    u32 (v / 2 ^ 32) * 2 ^ 32 + u32 (v % 2 ^ 32) = v := by
  unfold u32
  omega

/-! ## The claims -/

/-- C1: for every 64-bit value `v` the extended-state query at index 0
returns (the processor reporting its low half in eax and its high half in
edx), `main` holds `v` in `xcr0` and `xsave_shows_amx_support` is true if
and only if bit 17 and bit 18 of `v` are both set, whatever the other bits
are.  In particular `0x00020000` and `0x00040000` give false, `0x00060000`
gives true and `0` gives false. -/
theorem C1_xsave_flag_iff_both_tile_bits (hw : Hardware) (w : World) (v : Nat)
    (hv : v < 2 ^ 64) (hq : hw.xgetbvInsn 0 = (v % 2 ^ 32, v / 2 ^ 32)) :
    (main hw w).frame.xcr0 = v ∧
    ((main hw w).frame.xsave_shows_amx_support = true
      ↔ (v.testBit 17 = true ∧ v.testBit 18 = true)) ∧
    (v = 0x00020000 → (main hw w).frame.xsave_shows_amx_support = false) ∧
    (v = 0x00040000 → (main hw w).frame.xsave_shows_amx_support = false) ∧
    (v = 0x00060000 → (main hw w).frame.xsave_shows_amx_support = true) ∧
    (v = 0 → (main hw w).frame.xsave_shows_amx_support = false) := by
  have hx : (main hw w).frame.xcr0 = v := by
    rw [main_xcr0, hq]
    exact halves_recombine v hv
  have hf : (main hw w).frame.xsave_shows_amx_support
      = (v.testBit 17 && v.testBit 18) := by
    rw [main_xsave, hx]
  refine ⟨hx, ?_, ?_, ?_, ?_, ?_⟩
  · rw [hf, Bool.and_eq_true]
  · intro h; rw [hf, h]; decide
  · intro h; rw [hf, h]; decide
  · intro h; rw [hf, h]; decide
  · intro h; rw [hf, h]; decide

/-- Witness of C1 at `xcr0 = 0x00060000`. -/
theorem C1_xsave_flag_iff_both_tile_bits_witness :
    (0x00060000 < 2 ^ 64 ∧
      hwXcr0Only.xgetbvInsn 0 = (0x00060000 % 2 ^ 32, 0x00060000 / 2 ^ 32)) ∧
    ((main hwXcr0Only World.start).frame.xcr0 = 0x00060000 ∧
    ((main hwXcr0Only World.start).frame.xsave_shows_amx_support = true
      ↔ (Nat.testBit 0x00060000 17 = true ∧ Nat.testBit 0x00060000 18 = true)) ∧
    (0x00060000 = 0x00020000 →
      (main hwXcr0Only World.start).frame.xsave_shows_amx_support = false) ∧
    (0x00060000 = 0x00040000 →
      (main hwXcr0Only World.start).frame.xsave_shows_amx_support = false) ∧
    (0x00060000 = 0x00060000 →
      (main hwXcr0Only World.start).frame.xsave_shows_amx_support = true) ∧
    (0x00060000 = 0 →
      (main hwXcr0Only World.start).frame.xsave_shows_amx_support = false)) :=
  ⟨⟨by decide, by decide⟩,
   C1_xsave_flag_iff_both_tile_bits hwXcr0Only World.start 0x00060000 (by decide) (by decide)⟩

/-- C2: for every four-word result (eax, ebx, ecx, edx) of the capability
query at (leaf 7, sub-leaf 0), `main` derives tile = bit 24 of edx,
bf16 = bit 22 of edx and int8 = bit 25 of edx, whatever eax, ebx, ecx and
the other bits of edx are; edx = `0x03000000` gives tile and int8 true and
bf16 false, and edx = 0 gives all three false. -/
theorem C2_leaf7_subleaf0_flags (hw : Hardware) (w : World) (eax ebx ecx edx : Nat)
    (hq : hw.cpuidInsn 7 0 = { eax := eax, ebx := ebx, ecx := ecx, edx := edx }) :
    (main hw w).frame.amx_tile_supported = edx.testBit 24 ∧
    (main hw w).frame.amx_bf16_supported = edx.testBit 22 ∧
    (main hw w).frame.amx_int8_supported = edx.testBit 25 ∧
    (edx = 0x03000000 →
      (main hw w).frame.amx_tile_supported = true ∧
      (main hw w).frame.amx_int8_supported = true ∧
      (main hw w).frame.amx_bf16_supported = false) ∧
    (edx = 0 →
      (main hw w).frame.amx_tile_supported = false ∧
      (main hw w).frame.amx_bf16_supported = false ∧
      (main hw w).frame.amx_int8_supported = false) := by
  have ht : (main hw w).frame.amx_tile_supported = edx.testBit 24 := by
    rw [main_tile, hq]
  have hb : (main hw w).frame.amx_bf16_supported = edx.testBit 22 := by
    rw [main_bf16, hq]
  have hi : (main hw w).frame.amx_int8_supported = edx.testBit 25 := by
    rw [main_int8, hq]
  refine ⟨ht, hb, hi, ?_, ?_⟩
  · intro h
    rw [ht, hb, hi, h]
    decide
  · intro h
    rw [ht, hb, hi, h]
    decide

/-- Witness of C2 at edx = `0x03000000`. -/
theorem C2_leaf7_subleaf0_flags_witness :
    hwTileInt8.cpuidInsn 7 0 = { eax := 0, ebx := 0, ecx := 0, edx := 0x03000000 } ∧
    ((main hwTileInt8 World.start).frame.amx_tile_supported = Nat.testBit 0x03000000 24 ∧
    (main hwTileInt8 World.start).frame.amx_bf16_supported = Nat.testBit 0x03000000 22 ∧
    (main hwTileInt8 World.start).frame.amx_int8_supported = Nat.testBit 0x03000000 25 ∧
    (0x03000000 = 0x03000000 →
      (main hwTileInt8 World.start).frame.amx_tile_supported = true ∧
      (main hwTileInt8 World.start).frame.amx_int8_supported = true ∧
      (main hwTileInt8 World.start).frame.amx_bf16_supported = false) ∧
    (0x03000000 = 0 →
      (main hwTileInt8 World.start).frame.amx_tile_supported = false ∧
      (main hwTileInt8 World.start).frame.amx_bf16_supported = false ∧
      (main hwTileInt8 World.start).frame.amx_int8_supported = false)) :=
  ⟨by decide, C2_leaf7_subleaf0_flags hwTileInt8 World.start 0 0 0 0x03000000 (by decide)⟩

/-- C3: for every four-word result (eax, ebx, ecx, edx) of the capability
query at (leaf 7, sub-leaf 1), and whatever the query at (leaf 7,
sub-leaf 0) returned, `main` derives fp16 = bit 21 of that eax and
complex = bit 8 of that edx, and its variables eax and edx end up holding
the sub-leaf 1 words; eax = `0x00200000` gives fp16 true, edx =
`0x00000100` gives complex true, both zero give both flags false. -/
theorem C3_leaf7_subleaf1_flags (hw : Hardware) (w : World) (eax ebx ecx edx : Nat)
    (hq : hw.cpuidInsn 7 1 = { eax := eax, ebx := ebx, ecx := ecx, edx := edx }) :
    (main hw w).frame.amx_fp16_supported = eax.testBit 21 ∧
    (main hw w).frame.amx_complex_supported = edx.testBit 8 ∧
    (main hw w).frame.eax = eax % 2 ^ 32 ∧
    (main hw w).frame.edx = edx % 2 ^ 32 ∧
    (eax = 0x00200000 → (main hw w).frame.amx_fp16_supported = true) ∧
    (edx = 0x00000100 → (main hw w).frame.amx_complex_supported = true) ∧
    (eax = 0 → edx = 0 →
      (main hw w).frame.amx_fp16_supported = false ∧
      (main hw w).frame.amx_complex_supported = false) := by
  have hf : (main hw w).frame.amx_fp16_supported = eax.testBit 21 := by
    rw [main_fp16, hq]
  have hc : (main hw w).frame.amx_complex_supported = edx.testBit 8 := by
    rw [main_complex, hq]
  have ha : (main hw w).frame.eax = eax % 2 ^ 32 := by
    simp only [main, cpuid, u32_seven, u32_one, hq]
    rfl
  have hd : (main hw w).frame.edx = edx % 2 ^ 32 := by
    simp only [main, cpuid, u32_seven, u32_one, hq]
    rfl
  refine ⟨hf, hc, ha, hd, ?_, ?_, ?_⟩
  · intro h; rw [hf, h]; decide
  · intro h; rw [hc, h]; decide
  · intro h1 h2; rw [hf, hc, h1, h2]; decide

/-- Witness of C3: sub-leaf 0 has every bit set, sub-leaf 1 only eax
bit 21. -/
theorem C3_leaf7_subleaf1_flags_witness :
    hwFp16.cpuidInsn 7 1 = { eax := 0x00200000, ebx := 0, ecx := 0, edx := 0 } ∧
    ((main hwFp16 World.start).frame.amx_fp16_supported = Nat.testBit 0x00200000 21 ∧
    (main hwFp16 World.start).frame.amx_complex_supported = Nat.testBit 0 8 ∧
    (main hwFp16 World.start).frame.eax = 0x00200000 % 2 ^ 32 ∧
    (main hwFp16 World.start).frame.edx = 0 % 2 ^ 32 ∧
    (0x00200000 = 0x00200000 → (main hwFp16 World.start).frame.amx_fp16_supported = true) ∧
    (0 = 0x00000100 → (main hwFp16 World.start).frame.amx_complex_supported = true) ∧
    (0x00200000 = 0 → 0 = 0 →
      (main hwFp16 World.start).frame.amx_fp16_supported = false ∧
      (main hwFp16 World.start).frame.amx_complex_supported = false)) :=
  ⟨by decide, C3_leaf7_subleaf1_flags hwFp16 World.start 0x00200000 0 0 0 (by decide)⟩

theorem keep_sublist (bs : List Bool) (xs : List String) : (keep bs xs).Sublist xs := by
  induction bs generalizing xs with
  | nil => cases xs <;> simp [keep]
  | cons b bs ih =>
    cases xs with
    | nil => simp [keep]
    | cons x xs =>
      cases b
      · simpa [keep] using (ih xs).cons x
      · simpa [keep] using (ih xs).cons₂ x

theorem keep_length (bs : List Bool) (xs : List String) (h : bs.length = xs.length) :
    (keep bs xs).length = bs.count true := by
  induction bs generalizing xs with
  | nil => cases xs <;> simp [keep]
  | cons b bs ih =>
    cases xs with
    | nil => simp at h
    | cons x xs =>
      have h' : bs.length = xs.length := by simpa using h
      cases b
      · simpa [keep] using ih xs h'
      · simpa [keep] using ih xs h'

/-- C4: for every combination of query results, what `main` appends to
standard output is exactly the lines of the fixed six-line list whose flag
is true, each closed by a newline, in the order tile, bf16, int8, fp16,
complex, xsave: one line per true flag, none per false flag, a
sub-sequence of the six-line list, between zero and six lines. -/
theorem C4_output_is_kept_lines (hw : Hardware) (w : World) :
    (main hw w).world.stdout
      = w.stdout ++ String.join
          ((keep (main hw w).frame.flags capabilityLines).map (fun l => l ++ "\n")) ∧
    textLines (String.join
          ((keep (main hw w).frame.flags capabilityLines).map (fun l => l ++ "\n")))
      = keep (main hw w).frame.flags capabilityLines ∧
    (keep (main hw w).frame.flags capabilityLines).Sublist capabilityLines ∧
    (keep (main hw w).frame.flags capabilityLines).length
      = (main hw w).frame.flags.count true ∧
    (keep (main hw w).frame.flags capabilityLines).length ≤ 6 := by
  have hlen : (keep (main hw w).frame.flags capabilityLines).length
      = (main hw w).frame.flags.count true :=
    keep_length _ _ (by simp [Frame.flags, capabilityLines])
  refine ⟨?_, ?_, keep_sublist _ _, hlen, ?_⟩
  · rw [main_stdout, emitted_eq_join]
  · rw [← emitted_eq_join, textLines_emitted]
  · have := (keep_sublist (main hw w).frame.flags capabilityLines).length_le
    simpa [capabilityLines] using this

/-- C5: for every pair of 32-bit halves (eax = low, edx = high) the
processor reports, `xgetbv` returns `edx * 2^32 + eax`, a 64-bit value
whose lower 32 bits are eax and whose upper 32 bits are edx; two runs
returning the same value were given the same halves. -/
theorem C5_xgetbv_combines_halves (hw hw' : Hardware) (index index' : Nat) (w w' : World)
    (lo hi lo' hi' : Nat)
    (hlo : lo < 2 ^ 32) (hhi : hi < 2 ^ 32) (hlo' : lo' < 2 ^ 32) (hhi' : hi' < 2 ^ 32)
    (hq : hw.xgetbvInsn (u32 index) = (lo, hi))
    (hq' : hw'.xgetbvInsn (u32 index') = (lo', hi')) :
    (xgetbv hw index w).1 = hi * 2 ^ 32 + lo ∧
    (xgetbv hw index w).1 % 2 ^ 32 = lo ∧
    (xgetbv hw index w).1 / 2 ^ 32 = hi ∧
    (xgetbv hw index w).1 < 2 ^ 64 ∧
    ((xgetbv hw index w).1 = (xgetbv hw' index' w').1 → lo = lo' ∧ hi = hi') := by
  have e : (xgetbv hw index w).1 = hi * 2 ^ 32 + lo := by
    simp only [xgetbv, hq, xgetbv_value]
    rw [show u32 hi = hi from Nat.mod_eq_of_lt hhi, show u32 lo = lo from Nat.mod_eq_of_lt hlo]
  have e' : (xgetbv hw' index' w').1 = hi' * 2 ^ 32 + lo' := by
    simp only [xgetbv, hq', xgetbv_value]
    rw [show u32 hi' = hi' from Nat.mod_eq_of_lt hhi',
      show u32 lo' = lo' from Nat.mod_eq_of_lt hlo']
  rw [e, e']
  refine ⟨rfl, ?_, ?_, ?_, ?_⟩
  · omega
  · omega
  · omega
  · intro h
    omega

/-- Witness of C5: the halves `0x00060000` and `0xFFFFFFFF`, against the
halves `0xFFFFFFFF` and `0xFFFFFFFF`. -/
theorem C5_xgetbv_combines_halves_witness :
    ((0x00060000 : Nat) < 2 ^ 32 ∧ (0xFFFFFFFF : Nat) < 2 ^ 32 ∧
      (double Regs.zero Regs.zero 0x00060000 0xFFFFFFFF).xgetbvInsn (u32 0)
        = (0x00060000, 0xFFFFFFFF) ∧
      hwAll.xgetbvInsn (u32 0) = (0xFFFFFFFF, 0xFFFFFFFF)) ∧
    ((xgetbv (double Regs.zero Regs.zero 0x00060000 0xFFFFFFFF) 0 World.start).1
        = 0xFFFFFFFF * 2 ^ 32 + 0x00060000 ∧
    (xgetbv (double Regs.zero Regs.zero 0x00060000 0xFFFFFFFF) 0 World.start).1 % 2 ^ 32
        = 0x00060000 ∧
    (xgetbv (double Regs.zero Regs.zero 0x00060000 0xFFFFFFFF) 0 World.start).1 / 2 ^ 32
        = 0xFFFFFFFF ∧
    (xgetbv (double Regs.zero Regs.zero 0x00060000 0xFFFFFFFF) 0 World.start).1 < 2 ^ 64 ∧
    ((xgetbv (double Regs.zero Regs.zero 0x00060000 0xFFFFFFFF) 0 World.start).1
        = (xgetbv hwAll 0 World.used).1 →
      0x00060000 = 0xFFFFFFFF ∧ 0xFFFFFFFF = 0xFFFFFFFF)) :=
  ⟨⟨by decide, by decide, by decide, by decide⟩,
   C5_xgetbv_combines_halves (double Regs.zero Regs.zero 0x00060000 0xFFFFFFFF) hwAll 0 0
     World.start World.used 0x00060000 0xFFFFFFFF 0xFFFFFFFF 0xFFFFFFFF
     (by decide) (by decide) (by decide) (by decide) (by decide) (by decide)⟩

/-- C6: when all six underlying bits are set (edx bits 22, 24, 25 at leaf 7
sub-leaf 0; eax bit 21 and edx bit 8 at leaf 7 sub-leaf 1; xcr0 bits 17
and 18), all six flags are true and `main` emits exactly the six lines of
the fixed list, which are pairwise distinct: nothing is duplicated and
nothing is missing. -/
theorem C6_all_bits_set_six_distinct_lines (hw : Hardware) (w : World)
    (h24 : (hw.cpuidInsn 7 0).edx.testBit 24 = true)
    (h22 : (hw.cpuidInsn 7 0).edx.testBit 22 = true)
    (h25 : (hw.cpuidInsn 7 0).edx.testBit 25 = true)
    (h21 : (hw.cpuidInsn 7 1).eax.testBit 21 = true)
    (h8 : (hw.cpuidInsn 7 1).edx.testBit 8 = true)
    (h17 : (main hw w).frame.xcr0.testBit 17 = true)
    (h18 : (main hw w).frame.xcr0.testBit 18 = true) :
    (main hw w).frame.flags = [true, true, true, true, true, true] ∧
    (main hw w).world.stdout
      = w.stdout ++ String.join (capabilityLines.map (fun l => l ++ "\n")) ∧
    textLines (String.join (capabilityLines.map (fun l => l ++ "\n"))) = capabilityLines ∧
    capabilityLines.length = 6 ∧
    capabilityLines.Nodup := by
  have hflags : (main hw w).frame.flags = [true, true, true, true, true, true] := by
    simp only [Frame.flags, main_tile, main_bf16, main_int8, main_fp16, main_complex,
      main_xsave, h24, h22, h25, h21, h8, h17, h18, Bool.and_self]
  have hkeep : keep [true, true, true, true, true, true] capabilityLines = capabilityLines := by
    decide
  have hout := main_stdout hw w
  have hlines := textLines_emitted (main hw w).frame
  rw [emitted_eq_join, hflags, hkeep] at hout hlines
  exact ⟨hflags, hout, hlines, by decide, by decide⟩

/-- Witness of C6 on the processor with every bit set. -/
theorem C6_all_bits_set_six_distinct_lines_witness :
    ((hwAll.cpuidInsn 7 0).edx.testBit 24 = true ∧
      (hwAll.cpuidInsn 7 0).edx.testBit 22 = true ∧
      (hwAll.cpuidInsn 7 0).edx.testBit 25 = true ∧
      (hwAll.cpuidInsn 7 1).eax.testBit 21 = true ∧
      (hwAll.cpuidInsn 7 1).edx.testBit 8 = true ∧
      (main hwAll World.start).frame.xcr0.testBit 17 = true ∧
      (main hwAll World.start).frame.xcr0.testBit 18 = true) ∧
    ((main hwAll World.start).frame.flags = [true, true, true, true, true, true] ∧
    (main hwAll World.start).world.stdout
      = World.start.stdout ++ String.join (capabilityLines.map (fun l => l ++ "\n")) ∧
    textLines (String.join (capabilityLines.map (fun l => l ++ "\n"))) = capabilityLines ∧
    capabilityLines.length = 6 ∧
    capabilityLines.Nodup) :=
  ⟨⟨by decide, by decide, by decide, by decide, by decide, by decide, by decide⟩,
   C6_all_bits_set_six_distinct_lines hwAll World.start
     (by decide) (by decide) (by decide) (by decide) (by decide) (by decide) (by decide)⟩

/-- C7: a run of `main` issues exactly three hardware queries, each once
and in this order: `cpuid` with (leaf 7, sub-leaf 0), `cpuid` with
(leaf 7, sub-leaf 1), `xgetbv` with index `XCR0_INDEX` = 0; the sequence
is the same on every processor, whatever the queries return. -/
theorem C7_three_queries_in_fixed_order (hw hw' : Hardware) (w : World) :
    (main hw w).world.issued
      = w.issued ++ [Query.cpuid 7 0, Query.cpuid 7 1, Query.xgetbv XCR0_INDEX] ∧
    (main hw World.start).world.issued
      = [Query.cpuid 7 0, Query.cpuid 7 1, Query.xgetbv 0] ∧
    (main hw World.start).world.issued.length = 3 ∧
    (main hw World.start).world.issued.count (Query.cpuid 7 0) = 1 ∧
    (main hw World.start).world.issued.count (Query.cpuid 7 1) = 1 ∧
    (main hw World.start).world.issued.count (Query.xgetbv 0) = 1 ∧
    (main hw' w).world.issued = (main hw w).world.issued := by
  have hs : (main hw World.start).world.issued
      = [Query.cpuid 7 0, Query.cpuid 7 1, Query.xgetbv 0] := by
    rw [main_issued]
    rfl
  refine ⟨main_issued hw w, hs, ?_, ?_, ?_, ?_, ?_⟩
  · rw [hs]; rfl
  · rw [hs]; decide
  · rw [hs]; decide
  · rw [hs]; decide
  · rw [main_issued, main_issued]

/-- C8, as stated, fails: on the processor with every bit clear, started
from the initial world, `main` has issued three queries, not four. -/
theorem C8_four_queries_counterexample :
    (main hwNone World.start).world.issued.length = 3 ∧
    (main hwNone World.start).world.issued.length ≠ 4 := by
  decide

/-- C8, amended: in one run `main` calls the register query primitives
exactly three times: two capability queries, `cpuid` at (leaf 7,
sub-leaf 0) and `cpuid` at (leaf 7, sub-leaf 1), and one extended-state
query, `xgetbv` at index 0, and no other. -/
theorem C8_three_queries (hw : Hardware) (w : World) :
    (main hw w).world.issued
      = w.issued ++ [Query.cpuid 7 0, Query.cpuid 7 1, Query.xgetbv 0] ∧
    (main hw World.start).world.issued
      = [Query.cpuid 7 0, Query.cpuid 7 1, Query.xgetbv 0] ∧
    (main hw w).world.issued.length = w.issued.length + 3 ∧
    (main hw World.start).world.issued.length = 3 ∧
    (main hw World.start).world.issued.countP Query.isCpuid = 2 ∧
    (main hw World.start).world.issued.countP Query.isXgetbv = 1 := by
  have hs : (main hw World.start).world.issued
      = [Query.cpuid 7 0, Query.cpuid 7 1, Query.xgetbv 0] := by
    rw [main_issued]
    rfl
  refine ⟨main_issued hw w, hs, ?_, ?_, ?_, ?_⟩
  · rw [main_issued, List.length_append]
    rfl
  · rw [hs]; rfl
  · rw [hs]; decide
  · rw [hs]; decide

theorem main_frame_congr (hw1 hw2 : Hardware) (w1 w2 : World)
    (h0 : hw1.cpuidInsn 7 0 = hw2.cpuidInsn 7 0)
    (h1 : hw1.cpuidInsn 7 1 = hw2.cpuidInsn 7 1)
    (hx : hw1.xgetbvInsn 0 = hw2.xgetbvInsn 0) :
    (main hw1 w1).frame = (main hw2 w2).frame := by
  simp only [main, cpuid, xgetbv, u32_seven, u32_zero, u32_one, u32_xcr0_index, h0, h1, hx]

/-- C9: two runs of `main` whose three queries `cpuid(7,0)`, `cpuid(7,1)`
and `xgetbv(0)` get the same answers end with the same locals (so the
same six flags), the same exit status and append the same text to
standard output, whatever the processor answers to other selectors and
whatever happened before each run. -/
theorem C9_same_answers_same_flags_and_output (hw1 hw2 : Hardware) (w1 w2 : World)
    (h0 : hw1.cpuidInsn 7 0 = hw2.cpuidInsn 7 0)
    (h1 : hw1.cpuidInsn 7 1 = hw2.cpuidInsn 7 1)
    (hx : hw1.xgetbvInsn 0 = hw2.xgetbvInsn 0) :
    (main hw1 w1).frame = (main hw2 w2).frame ∧
    (main hw1 w1).frame.flags = (main hw2 w2).frame.flags ∧
    (main hw1 w1).status = (main hw2 w2).status ∧
    ∃ out : String,
      (main hw1 w1).world.stdout = w1.stdout ++ out ∧
      (main hw2 w2).world.stdout = w2.stdout ++ out := by
  have hf := main_frame_congr hw1 hw2 w1 w2 h0 h1 hx
  refine ⟨hf, by rw [hf], by rw [main_status, main_status], emitted (main hw1 w1).frame, ?_, ?_⟩
  · exact main_stdout hw1 w1
  · rw [hf]
    exact main_stdout hw2 w2

/-- Witness of C9: a first run on one processor from the initial world,
and a second run, started where the first ended, on a processor that
differs only outside the three queries. -/
theorem C9_same_answers_same_flags_and_output_witness :
    (hwTileInt8.cpuidInsn 7 0 = hwTileInt8Alt.cpuidInsn 7 0 ∧
      hwTileInt8.cpuidInsn 7 1 = hwTileInt8Alt.cpuidInsn 7 1 ∧
      hwTileInt8.xgetbvInsn 0 = hwTileInt8Alt.xgetbvInsn 0) ∧
    ((main hwTileInt8 World.start).frame
        = (main hwTileInt8Alt (main hwTileInt8 World.start).world).frame ∧
    (main hwTileInt8 World.start).frame.flags
        = (main hwTileInt8Alt (main hwTileInt8 World.start).world).frame.flags ∧
    (main hwTileInt8 World.start).status
        = (main hwTileInt8Alt (main hwTileInt8 World.start).world).status ∧
    ∃ out : String,
      (main hwTileInt8 World.start).world.stdout = World.start.stdout ++ out ∧
      (main hwTileInt8Alt (main hwTileInt8 World.start).world).world.stdout
        = (main hwTileInt8 World.start).world.stdout ++ out) :=
  ⟨⟨by decide, by decide, by decide⟩,
   C9_same_answers_same_flags_and_output hwTileInt8 hwTileInt8Alt World.start
     (main hwTileInt8 World.start).world (by decide) (by decide) (by decide)⟩

theorem emitted_hwNone : emitted (main hwNone World.start).frame = "" := by
  decide

set_option maxRecDepth 100000 in
theorem emitted_hwAll :
    emitted (main hwAll World.start).frame
      = String.join (capabilityLines.map (fun l => l ++ "\n")) := by
  decide

/-- C10: for every combination of query results `main` completes with
exit status 0; with every bit clear it does so after writing nothing, with
every bit set after writing all six lines. -/
theorem C10_exit_status_zero (hw : Hardware) (w : World) :
    (main hw w).status = 0 ∧
    (main hwNone w).status = 0 ∧
    (main hwNone w).world.stdout = w.stdout ∧
    (main hwAll w).status = 0 ∧
    (main hwAll w).world.stdout
      = w.stdout ++ String.join (capabilityLines.map (fun l => l ++ "\n")) := by
  have hnone : (main hwNone w).frame = (main hwNone World.start).frame :=
    main_frame_congr _ _ _ _ rfl rfl rfl
  have hall : (main hwAll w).frame = (main hwAll World.start).frame :=
    main_frame_congr _ _ _ _ rfl rfl rfl
  refine ⟨main_status hw w, main_status _ w, ?_, main_status _ w, ?_⟩
  · rw [main_stdout, hnone]
    rw [emitted_hwNone, String.append_empty]
  · rw [main_stdout, hall]
    rw [emitted_hwAll]

/-! ## Lines, capabilities and bit inclusion -/

theorem mainLines_eq (hw : Hardware) (w : World) :
    mainLines hw w = keep (main hw w).frame.flags capabilityLines := by
  unfold mainLines appended
  rw [main_stdout, String.data_append, List.drop_left]
  exact textLines_emitted (main hw w).frame

theorem keep_map {α : Type} (p : α → Bool) (g : α → String) (cs : List α) :
    keep (cs.map p) (cs.map g) = (cs.filter p).map g := by
  induction cs with
  | nil => rfl
  | cons c cs ih =>
    cases h : p c <;> simp [keep, List.filter, h, ih]

theorem Capability.mem_all (c : Capability) : c ∈ Capability.all := by
  cases c <;> decide

theorem Capability.line_injective : Function.Injective Capability.line := by
  intro c c' h
  cases c <;> cases c' <;> first | rfl | exact absurd h (by decide)

theorem mem_mainLines_iff (hw : Hardware) (w : World) (l : String) :
    l ∈ mainLines hw w
      ↔ ∃ c : Capability, l = c.line ∧ c.flag (main hw w).frame = true := by
  have hflags : (main hw w).frame.flags
      = Capability.all.map (Capability.flag (main hw w).frame) := rfl
  have hlines : capabilityLines = Capability.all.map Capability.line := by decide
  rw [mainLines_eq, hflags, hlines, keep_map]
  constructor
  · intro h
    obtain ⟨c, hc, rfl⟩ := List.mem_map.mp h
    exact ⟨c, rfl, (List.mem_filter.mp hc).2⟩
  · rintro ⟨c, rfl, hc⟩
    exact List.mem_map.mpr ⟨c, List.mem_filter.mpr ⟨Capability.mem_all c, hc⟩, rfl⟩

theorem line_mem_mainLines_iff (hw : Hardware) (w : World) (c : Capability) :
    c.line ∈ mainLines hw w ↔ c.flag (main hw w).frame = true := by
  rw [mem_mainLines_iff]
  constructor
  · rintro ⟨c', h, hc'⟩
    rw [Capability.line_injective h]
    exact hc'
  · intro h
    exact ⟨c, rfl, h⟩

/-- C11: every line `main` writes is the line of exactly one capability
whose flag is true.  The five lines of the flags computed from a `cpuid`
result begin with "CPUID reports" and do not mention XCR0; the line of the
composite flag mentions XCR0 and does not mention CPUID.  Each line
contains the name of its own capability (AMX-TILE, AMX-BF16, AMX-INT8,
AMX-FP16, AMX-COMPLEX, XCR0) and the name of no other, and distinct
capabilities have distinct lines, so a line alone tells which flag was
true and which mechanism reported it. -/
theorem C11_lines_identify_capability_and_mechanism (hw : Hardware) (w : World) :
    (∀ l : String, l ∈ mainLines hw w
      ↔ ∃ c : Capability, l = c.line ∧ c.flag (main hw w).frame = true) ∧
    (∀ c : Capability,
      beginsWith "CPUID reports" c.line = c.viaCpuid ∧
      mentions "CPUID" c.line = c.viaCpuid ∧
      mentions "XCR0" c.line = !c.viaCpuid) ∧
    (∀ c c' : Capability, mentions c'.label c.line = decide (c' = c)) ∧
    Function.Injective Capability.line := by
  refine ⟨mem_mainLines_iff hw w, ?_, ?_, Capability.line_injective⟩
  · intro c
    cases c <;> decide
  · intro c c'
    cases c <;> cases c' <;> decide

theorem flag_xsave_congr (hw hwX : Hardware) (w wX : World)
    (hX : hwX.xgetbvInsn 0 = hw.xgetbvInsn 0) :
    (main hwX wX).frame.xsave_shows_amx_support
      = (main hw w).frame.xsave_shows_amx_support := by
  rw [main_xsave, main_xsave, main_xcr0, main_xcr0, hX]

theorem flag_cpuid_congr (hw hwC : Hardware) (w wC : World)
    (hC0 : hwC.cpuidInsn 7 0 = hw.cpuidInsn 7 0)
    (hC1 : hwC.cpuidInsn 7 1 = hw.cpuidInsn 7 1)
    (c : Capability) (hc : c.viaCpuid = true) :
    c.flag (main hwC wC).frame = c.flag (main hw w).frame := by
  cases c
  · simp only [Capability.flag, main_tile, hC0]
  · simp only [Capability.flag, main_bf16, hC0]
  · simp only [Capability.flag, main_int8, hC0]
  · simp only [Capability.flag, main_fp16, hC1]
  · simp only [Capability.flag, main_complex, hC1]
  · exact absurd hc (by decide)

/-- C12: the two detection mechanisms are never combined.  A run on a
processor that agrees with another only on the answer to `xgetbv(0)` has
the same composite flag and prints the XCR0 line exactly when the other
does; a run on a processor that agrees with another only on the answers
to `cpuid(7,0)` and `cpuid(7,1)` has the same five CPUID flags and prints
each CPUID line exactly when the other does.  With all capability words
zero and xcr0 = `0x00060000` the XCR0 line is the only line printed
although the tile flag is false; with the five CPUID bits set and
xcr0 = 0 the five CPUID lines are printed and the XCR0 line is not. -/
theorem C12_mechanisms_not_combined (hw hwX hwC : Hardware) (w wX wC : World)
    (hX : hwX.xgetbvInsn 0 = hw.xgetbvInsn 0)
    (hC0 : hwC.cpuidInsn 7 0 = hw.cpuidInsn 7 0)
    (hC1 : hwC.cpuidInsn 7 1 = hw.cpuidInsn 7 1) :
    (main hwX wX).frame.xsave_shows_amx_support
      = (main hw w).frame.xsave_shows_amx_support ∧
    (Capability.xsave.line ∈ mainLines hwX wX
      ↔ Capability.xsave.line ∈ mainLines hw w) ∧
    (∀ c : Capability, c.viaCpuid = true →
      c.flag (main hwC wC).frame = c.flag (main hw w).frame ∧
      (c.line ∈ mainLines hwC wC ↔ c.line ∈ mainLines hw w)) ∧
    (main hwXcr0Only World.start).frame.amx_tile_supported = false ∧
    (main hwXcr0Only World.start).frame.xcr0 = 0x00060000 ∧
    mainLines hwXcr0Only World.start
      = ["The TILECFG and TILEDATA bits are set in the Extended Control Register 0 (XCR0)."] ∧
    (main hwCpuidOnly World.start).frame.xcr0 = 0 ∧
    (main hwCpuidOnly World.start).frame.xsave_shows_amx_support = false ∧
    mainLines hwCpuidOnly World.start
      = ["CPUID reports AMX-TILE support.",
         "CPUID reports AMX-BF16 support.",
         "CPUID reports AMX-INT8 support.",
         "CPUID reports AMX-FP16 support.",
         "CPUID reports AMX-COMPLEX support."] := by
  have hx := flag_xsave_congr hw hwX w wX hX
  refine ⟨hx, ?_, ?_, by decide, by decide, by decide, by decide, by decide, by decide⟩
  · rw [line_mem_mainLines_iff, line_mem_mainLines_iff]
    simp only [Capability.flag, hx]
  · intro c hc
    have hf := flag_cpuid_congr hw hwC w wC hC0 hC1 c hc
    refine ⟨hf, ?_⟩
    rw [line_mem_mainLines_iff, line_mem_mainLines_iff, hf]

/-- Witness of C12: the reference processor has every bit set, the second
one shares only its XCR0, the third one only its two CPUID answers. -/
theorem C12_mechanisms_not_combined_witness :
    ((double Regs.zero Regs.zero 0xFFFFFFFF 0xFFFFFFFF).xgetbvInsn 0 = hwAll.xgetbvInsn 0 ∧
      (double Regs.ones Regs.ones 0 0).cpuidInsn 7 0 = hwAll.cpuidInsn 7 0 ∧
      (double Regs.ones Regs.ones 0 0).cpuidInsn 7 1 = hwAll.cpuidInsn 7 1) ∧
    ((main (double Regs.zero Regs.zero 0xFFFFFFFF 0xFFFFFFFF) World.used).frame.xsave_shows_amx_support
      = (main hwAll World.start).frame.xsave_shows_amx_support ∧
    (Capability.xsave.line ∈ mainLines (double Regs.zero Regs.zero 0xFFFFFFFF 0xFFFFFFFF) World.used
      ↔ Capability.xsave.line ∈ mainLines hwAll World.start) ∧
    (∀ c : Capability, c.viaCpuid = true →
      c.flag (main (double Regs.ones Regs.ones 0 0) World.used).frame
        = c.flag (main hwAll World.start).frame ∧
      (c.line ∈ mainLines (double Regs.ones Regs.ones 0 0) World.used
        ↔ c.line ∈ mainLines hwAll World.start)) ∧
    (main hwXcr0Only World.start).frame.amx_tile_supported = false ∧
    (main hwXcr0Only World.start).frame.xcr0 = 0x00060000 ∧
    mainLines hwXcr0Only World.start
      = ["The TILECFG and TILEDATA bits are set in the Extended Control Register 0 (XCR0)."] ∧
    (main hwCpuidOnly World.start).frame.xcr0 = 0 ∧
    (main hwCpuidOnly World.start).frame.xsave_shows_amx_support = false ∧
    mainLines hwCpuidOnly World.start
      = ["CPUID reports AMX-TILE support.",
         "CPUID reports AMX-BF16 support.",
         "CPUID reports AMX-INT8 support.",
         "CPUID reports AMX-FP16 support.",
         "CPUID reports AMX-COMPLEX support."]) :=
  ⟨⟨by decide, by decide, by decide⟩,
   C12_mechanisms_not_combined hwAll (double Regs.zero Regs.zero 0xFFFFFFFF 0xFFFFFFFF)
     (double Regs.ones Regs.ones 0 0) World.start World.used World.used
     (by decide) (by decide) (by decide)⟩

theorem bitsLe_testBit {a b : Nat} (h : bitsLe a b) (i : Nat)
    (ha : a.testBit i = true) : b.testBit i = true := by
  have e : (a &&& b).testBit i = a.testBit i := by rw [show a &&& b = a from h]
  rw [Nat.testBit_and, ha] at e
  simpa using e

theorem bitsLe_iff_testBit (a b : Nat) :
    bitsLe a b ↔ ∀ i, a.testBit i = true → b.testBit i = true := by
  constructor
  · intro h i
    exact bitsLe_testBit h i
  · intro h
    apply Nat.eq_of_testBit_eq
    intro i
    rw [Nat.testBit_and]
    cases ha : a.testBit i
    · rfl
    · rw [h i ha]
      rfl

theorem keep_mono (as bs : List Bool) (xs : List String)
    (h : List.Forall₂ (fun a b => a = true → b = true) as bs) :
    (keep as xs).Sublist (keep bs xs) := by
  induction h generalizing xs with
  | nil => simp [keep]
  | @cons a b as bs hab _ ih =>
    cases xs with
    | nil => simp [keep]
    | cons x xs =>
      cases a
      · cases b
        · simpa [keep] using ih xs
        · simpa [keep] using (ih xs).cons x
      · have hb : b = true := hab rfl
        subst hb
        simpa [keep] using (ih xs).cons₂ x

theorem flag_mono (hwA hwB : Hardware) (wA wB : World)
    (h0 : Regs.bitsLe (hwA.cpuidInsn 7 0) (hwB.cpuidInsn 7 0))
    (h1 : Regs.bitsLe (hwA.cpuidInsn 7 1) (hwB.cpuidInsn 7 1))
    (hx : bitsLe (main hwA wA).frame.xcr0 (main hwB wB).frame.xcr0)
    (c : Capability) (hc : c.flag (main hwA wA).frame = true) :
    c.flag (main hwB wB).frame = true := by
  cases c
  · simp only [Capability.flag, main_tile] at hc ⊢
    exact bitsLe_testBit h0.2.2.2 _ hc
  · simp only [Capability.flag, main_bf16] at hc ⊢
    exact bitsLe_testBit h0.2.2.2 _ hc
  · simp only [Capability.flag, main_int8] at hc ⊢
    exact bitsLe_testBit h0.2.2.2 _ hc
  · simp only [Capability.flag, main_fp16] at hc ⊢
    exact bitsLe_testBit h1.1 _ hc
  · simp only [Capability.flag, main_complex] at hc ⊢
    exact bitsLe_testBit h1.2.2.2 _ hc
  · simp only [Capability.flag] at hc ⊢
    rw [main_xsave, Bool.and_eq_true] at hc ⊢
    exact ⟨bitsLe_testBit hx _ hc.1, bitsLe_testBit hx _ hc.2⟩

/-- C13: if every bit set in the query results of run A (the four words
of `cpuid(7,0)`, the four words of `cpuid(7,1)`, and xcr0) is also set in
the corresponding results of run B, then every flag true in A is true in
B and the lines A writes are a sub-sequence of the lines B writes. -/
theorem C13_reporting_monotone (hwA hwB : Hardware) (wA wB : World)
    (h0 : Regs.bitsLe (hwA.cpuidInsn 7 0) (hwB.cpuidInsn 7 0))
    (h1 : Regs.bitsLe (hwA.cpuidInsn 7 1) (hwB.cpuidInsn 7 1))
    (hx : bitsLe (main hwA wA).frame.xcr0 (main hwB wB).frame.xcr0) :
    (∀ c : Capability,
      c.flag (main hwA wA).frame = true → c.flag (main hwB wB).frame = true) ∧
    (mainLines hwA wA).Sublist (mainLines hwB wB) := by
  have hm := flag_mono hwA hwB wA wB h0 h1 hx
  refine ⟨hm, ?_⟩
  rw [mainLines_eq, mainLines_eq]
  apply keep_mono
  exact List.Forall₂.cons (hm Capability.tile)
    (List.Forall₂.cons (hm Capability.bf16)
    (List.Forall₂.cons (hm Capability.int8)
    (List.Forall₂.cons (hm Capability.fp16)
    (List.Forall₂.cons (hm Capability.complex)
    (List.Forall₂.cons (hm Capability.xsave) List.Forall₂.nil)))))

/-- Witness of C13: run A sees only edx = `0x03000000` at leaf 7
sub-leaf 0, run B sees every bit set. -/
theorem C13_reporting_monotone_witness :
    (Regs.bitsLe (hwTileInt8.cpuidInsn 7 0) (hwAll.cpuidInsn 7 0) ∧
      Regs.bitsLe (hwTileInt8.cpuidInsn 7 1) (hwAll.cpuidInsn 7 1) ∧
      bitsLe (main hwTileInt8 World.start).frame.xcr0 (main hwAll World.used).frame.xcr0) ∧
    ((∀ c : Capability,
      c.flag (main hwTileInt8 World.start).frame = true →
        c.flag (main hwAll World.used).frame = true) ∧
    (mainLines hwTileInt8 World.start).Sublist (mainLines hwAll World.used)) :=
  ⟨⟨by decide, by decide, by decide⟩,
   C13_reporting_monotone hwTileInt8 hwAll World.start World.used
     (by decide) (by decide) (by decide)⟩

end AmxCpuid
